import Mathlib

/-!
Shallow embedding of `src/main.py` (skyblock-fuel): a recipe valuation
engine over a fixed tree of crafting recipes, plus its price-fetching and
operator-I/O glue.

Python floats are modelled as exact rationals (`ℚ`); every concrete value
appearing in the program and the claims is exactly representable, so no
claim here hinges on binary floating-point representation.  Python `dict`s
are modelled as insertion-ordered association lists, matching CPython's
documented iteration order.
-/

/-- The `Item` pydantic model of `main.py`: a priced leaf material. -/
structure Item where
  item_id : String
  price : ℚ
  stack_size : ℕ
deriving DecidableEq, Repr

mutual

/-- A node of the recipe tree: the polymorphic `Union[Item, "Recipe"]`
target of an `Ingredient`.  `item` is a leaf `Item`; `recipe` carries the
`Recipe` model's `name`, its ordered `ingredients` dict and its
`output_amount`. -/
inductive Node where
  | item (it : Item) : Node
  | recipe (name : String) (ingredients : Ingredients) (output_amount : ℚ) : Node

/-- The `ingredients` dict of a `Recipe`: an insertion-ordered list of
entries `key ↦ Ingredient(item := target, amount := amount)`. -/
inductive Ingredients where
  | nil : Ingredients
  | cons (key : String) (amount : ℚ) (target : Node) (rest : Ingredients) : Ingredients

end

mutual

/-- `Recipe.calculate_cost` of `main.py` (lines 37-47), extended to leaf
items by the implicit base case: a leaf's "cost" is its `price`, exactly
what the `isinstance` dispatch in the Python comprehension reads off
(`ingredient.item.price`).  For a recipe the cost is the ingredient sum
divided by `output_amount`. -/
def calculate_cost : Node → ℚ
  | .item it => it.price
  | .recipe _ ingredients output_amount => ingredientsCost ingredients / output_amount

/-- The generator-sum inside `calculate_cost`:
`sum(cost(ingredient.item) * ingredient.amount for ingredient in ingredients)`.
`calculate_cost target` is `target.price` on a leaf and the recursive
`calculate_cost` on a nested recipe, mirroring the `isinstance` branch. -/
def ingredientsCost : Ingredients → ℚ
  | .nil => 0
  | .cons _ amount target rest => calculate_cost target * amount + ingredientsCost rest

end

/-- Python dict mutation `totals[item_id] += v` / `totals[item_id] = v`:
add `v` to an existing key in place, else append the new key at the end
(CPython insertion order). -/
def addToTotals (totals : List (String × ℚ)) (item_id : String) (v : ℚ) :
    List (String × ℚ) :=
  match totals with
  | [] => [(item_id, v)]
  | (k, w) :: rest =>
      if k = item_id then (k, w + v) :: rest
      else (k, w) :: addToTotals rest item_id v

mutual

/-- `Recipe._calculate_total_amount_recursive` of `main.py` (lines 55-70):
computes `multiplier = target_amount / output_amount` and walks the
ingredients, threading the accumulator dict.  The `item` case is never
reached by the program (the dispatch happens inside the loop) and returns
the accumulator unchanged. -/
def calcTotalRecursive : Node → ℚ → List (String × ℚ) → List (String × ℚ)
  | .item _, _, totals => totals
  | .recipe _ ingredients output_amount, target_amount, totals =>
      ingredientsTotals ingredients (target_amount / output_amount) totals

/-- The `for ingredient_name, ingredient in self.ingredients.items()` loop:
a leaf target adds `amount * multiplier` under its `item_id`; a recipe
target recurses with scaled target `amount * multiplier` into the same
accumulator. -/
def ingredientsTotals : Ingredients → ℚ → List (String × ℚ) → List (String × ℚ)
  | .nil, _, totals => totals
  | .cons _ amount (.item it) rest, multiplier, totals =>
      ingredientsTotals rest multiplier
        (addToTotals totals it.item_id (amount * multiplier))
  | .cons _ amount (.recipe n ings o) rest, multiplier, totals =>
      ingredientsTotals rest multiplier
        (calcTotalRecursive (.recipe n ings o) (amount * multiplier) totals)

end

/-- `Recipe.calculate_total_amount` (lines 49-53): runs the recursive
helper on a fresh empty accumulator. -/
def calculate_total_amount (node : Node) (target_amount : ℚ) :
    List (String × ℚ) :=
  calcTotalRecursive node target_amount []

/-! ## Price fetching (`fetch_item_data`, lines 80-93)

The bazaar response is abstracted to its only consulted part: the mapping
`products[id]["quick_status"]["buyPrice"]`, modelled as an association
list from product id to buy price. -/

/-- One entry of the `ITEM_DATA` constant: `{"id": ..., "stack_size": ...}`. -/
structure ItemInfo where
  id : String
  stack_size : ℕ
deriving DecidableEq, Repr

/-- The `ITEM_DATA` constant of `main.py` (lines 8-15), in source order. -/
def ITEM_DATA : List (String × ItemInfo) :=
  [(("CHILI_PEPPER"), ⟨("CHILI_PEPPER"), 64⟩),
   (("VERY_CRUDE_GABAGOOL"), ⟨("VERY_CRUDE_GABAGOOL"), 64⟩),
   (("ENCHANTED_SULPHUR"), ⟨("ENCHANTED_SULPHUR"), 64⟩),
   (("ENCHANTED_COAL"), ⟨("ENCHANTED_COAL"), 64⟩),
   (("INFERNO_FUEL_BLOCK"), ⟨("INFERNO_FUEL_BLOCK"), 64⟩),
   (("CRUDE_GABAGOOL_DISTILLATE"), ⟨("CRUDE_GABAGOOL_DISTILLATE"), 64⟩)]

/-- First-match lookup in an association list: Python dict subscript /
`in` test, returning `none` where Python raises `KeyError` (resp. the `in`
test is false). -/
def lookupOpt {α : Type _} : List (String × α) → String → Option α
  | [], _ => none
  | (k, v) :: rest, key => if k = key then some v else lookupOpt rest key

/-- Python `round(x, 2)` on the fetched buy price: round `x * 100` to the
nearest integer, ties to the nearest even integer (banker's rounding,
CPython's documented behaviour), then divide by `100`.  The underlying
binary-float representation is abstracted away: prices are exact
rationals. -/
def pyRound2 (x : ℚ) : ℚ :=
  (let y := x * 100
   let f := ⌊y⌋
   let r := y - f
   ((if r < 1 / 2 then f
     else if 1 / 2 < r then f + 1
     else if f % 2 = 0 then f else f + 1) : ℚ)) / 100

/-- `fetch_item_data` (lines 80-93): for each configured entry of
`ITEM_DATA` whose id occurs in the response's products, build an `Item`
with the buy price rounded to two decimals; entries absent from the
response are skipped by the `if item_info["id"] in data["products"]`
guard. -/
def fetch_item_data (products : List (String × ℚ)) : List (String × Item) :=
  ITEM_DATA.filterMap fun entry =>
    (lookupOpt products entry.2.id).map fun buyPrice =>
      (entry.1, Item.mk entry.2.id (pyRound2 buyPrice) entry.2.stack_size)

/-! ## The fixed recipe tree (lines 100-147)

The five recipes are built once at import time from `items_data`; a
missing dict key there raises `KeyError` and aborts the process, which the
`Option` chain models as `none`.  `build_recipes` performs the lookups in
the order Python evaluates them. -/

/-- The five leaf buy prices the tree consumes, after rounding — the
result of successful lookups in `items_data`.  Recipes parameterized over
these model the import-time constants for any fetched price set. -/
structure Prices where
  enchanted_coal : ℚ
  enchanted_sulphur : ℚ
  very_crude_gabagool : ℚ
  inferno_fuel_block : ℚ
  crude_gabagool_distillate : ℚ
deriving DecidableEq, Repr

/-- `SULPHURIC_COAL` (lines 100-107): 16 enchanted coal + 1 enchanted
sulphur, output 4. -/
def SULPHURIC_COAL (p : Prices) : Node :=
  .recipe ("Sulphuric Coal")
    (.cons ("ENCHANTED_COAL") 16 (.item ⟨("ENCHANTED_COAL"), p.enchanted_coal, 64⟩)
      (.cons ("ENCHANTED_SULPHUR") 1 (.item ⟨("ENCHANTED_SULPHUR"), p.enchanted_sulphur, 64⟩)
        .nil))
    4

/-- `FUEL_GABAGOOL` (lines 109-118): 8 sulphuric coal + 1 very crude
gabagool, output 8. -/
def FUEL_GABAGOOL (p : Prices) : Node :=
  .recipe ("Fuel Gabagool")
    (.cons ("SULPHURIC_COAL") 8 (SULPHURIC_COAL p)
      (.cons ("VERY_CRUDE_GABAGOOL") 1
        (.item ⟨("VERY_CRUDE_GABAGOOL"), p.very_crude_gabagool, 64⟩) .nil))
    8

/-- `HEAVY_GABAGOOL` (lines 120-126): 1 sulphuric coal + 24 fuel gabagool,
default output 1. -/
def HEAVY_GABAGOOL (p : Prices) : Node :=
  .recipe ("Heavy Gabagool")
    (.cons ("SULPHURIC_COAL") 1 (SULPHURIC_COAL p)
      (.cons ("FUEL_GABAGOOL") 24 (FUEL_GABAGOOL p) .nil))
    1

/-- `HYPERGOLIC_GABAGOOL` (lines 128-134): 1 sulphuric coal + 12 heavy
gabagool, default output 1. -/
def HYPERGOLIC_GABAGOOL (p : Prices) : Node :=
  .recipe ("Hypergolic Gabagool")
    (.cons ("SULPHURIC_COAL") 1 (SULPHURIC_COAL p)
      (.cons ("HEAVY_GABAGOOL") 12 (HEAVY_GABAGOOL p) .nil))
    1

/-- `T3_FUEL` (lines 136-147): 1 hypergolic gabagool + 2 inferno fuel
blocks + 6 crude gabagool distillate, default output 1. -/
def T3_FUEL (p : Prices) : Node :=
  .recipe ("Inferno Minion Fuel")
    (.cons ("HYPERGOLIC_GABAGOOL") 1 (HYPERGOLIC_GABAGOOL p)
      (.cons ("INFERNO_FUEL_BLOCK") 2
        (.item ⟨("INFERNO_FUEL_BLOCK"), p.inferno_fuel_block, 64⟩)
        (.cons ("CRUDE_GABAGOOL_DISTILLATE") 6
          (.item ⟨("CRUDE_GABAGOOL_DISTILLATE"), p.crude_gabagool_distillate, 64⟩) .nil)))
    1

/-- Import-time recipe construction (lines 97-147): each
`items_data[...]` subscript is a lookup that raises `KeyError` (modelled
`none`) when the key is absent, in Python's evaluation order.  On success
the result is the `T3_FUEL` tree. -/
def build_recipes (items_data : List (String × Item)) : Option Node := do
  let coal ← lookupOpt items_data ("ENCHANTED_COAL")
  let sulphur ← lookupOpt items_data ("ENCHANTED_SULPHUR")
  let sulphuric_coal : Node :=
    .recipe ("Sulphuric Coal")
      (.cons ("ENCHANTED_COAL") 16 (.item coal)
        (.cons ("ENCHANTED_SULPHUR") 1 (.item sulphur) .nil))
      4
  let vcg ← lookupOpt items_data ("VERY_CRUDE_GABAGOOL")
  let fuel_gabagool : Node :=
    .recipe ("Fuel Gabagool")
      (.cons ("SULPHURIC_COAL") 8 sulphuric_coal
        (.cons ("VERY_CRUDE_GABAGOOL") 1 (.item vcg) .nil))
      8
  let heavy_gabagool : Node :=
    .recipe ("Heavy Gabagool")
      (.cons ("SULPHURIC_COAL") 1 sulphuric_coal
        (.cons ("FUEL_GABAGOOL") 24 fuel_gabagool .nil))
      1
  let hypergolic_gabagool : Node :=
    .recipe ("Hypergolic Gabagool")
      (.cons ("SULPHURIC_COAL") 1 sulphuric_coal
        (.cons ("HEAVY_GABAGOOL") 12 heavy_gabagool .nil))
      1
  let ifb ← lookupOpt items_data ("INFERNO_FUEL_BLOCK")
  let cgd ← lookupOpt items_data ("CRUDE_GABAGOOL_DISTILLATE")
  pure (.recipe ("Inferno Minion Fuel")
    (.cons ("HYPERGOLIC_GABAGOOL") 1 hypergolic_gabagool
      (.cons ("INFERNO_FUEL_BLOCK") 2 (.item ifb)
        (.cons ("CRUDE_GABAGOOL_DISTILLATE") 6 (.item cgd) .nil)))
    1)

/-! ## Operator I/O and `main` (lines 151-194) -/

/-- The outcome of one `int(input(...))` prompt: the typed line parses as
an integer, it does not (`ValueError`), or the operator interrupts
(`KeyboardInterrupt`). -/
inductive OpInput where
  | valid (n : ℤ) : OpInput
  | notAnInt : OpInput
  | keyboardInterrupt : OpInput
deriving DecidableEq, Repr

/-- A terminated process: the diagnostic it printed and its exit status. -/
abbrev PyExit := String × ℕ

/-- `get_t3_amount` (lines 151-159): a valid integer is returned;
`ValueError` and `KeyboardInterrupt` print a short message and
`exit(1)`. -/
def get_t3_amount : OpInput → Except PyExit ℤ
  | .valid n => .ok n
  | .notAnInt => .error (("\nScheint keine Zahl zu sein ..."), 1)
  | .keyboardInterrupt => .error (("\nReceived KeyboardInterrupt ..."), 1)

/-- `get_minion_amount` (lines 162-170): identical error handling to
`get_t3_amount`. -/
def get_minion_amount : OpInput → Except PyExit ℤ
  | .valid n => .ok n
  | .notAnInt => .error (("\nScheint keine Zahl zu sein ..."), 1)
  | .keyboardInterrupt => .error (("\nReceived KeyboardInterrupt ..."), 1)

/-- Everything `main` prints on success, in program order. -/
structure MainOutput where
  total_cost : ℚ
  total_items_needed : List (String × ℚ)
  fuel_per_minion : ℚ
deriving DecidableEq, Repr

/-- `main` (lines 173-190) over the already-built tree: read the two
amounts, compute `fuel_per_minion = t3_amount / minion_amount` — Python
`int / int` raises `ZeroDivisionError` (an uncaught fatal error, exit
status 1) when the divisor is 0, *before* any cost is computed or printed
— then the total cost and the total item amounts. -/
def run_main (p : Prices) (e1 e2 : OpInput) : Except PyExit MainOutput := do
  let t3_amount ← get_t3_amount e1
  let minion_amount ← get_minion_amount e2
  let fuel_per_minion ←
    if minion_amount = 0 then
      Except.error ((("ZeroDivisionError: division by zero"), 1) : PyExit)
    else pure ((t3_amount : ℚ) / (minion_amount : ℚ))
  let total_cost := calculate_cost (T3_FUEL p) * (t3_amount : ℚ)
  let total_items_needed := calculate_total_amount (T3_FUEL p) (t3_amount : ℚ)
  pure ⟨total_cost, total_items_needed, fuel_per_minion⟩

/-! ## Reference quantities: per-path contributions

`contribSum node T key` is the sum, over every ingredient path from
`node` to a leaf with identifier `key`, of that path's resolved scaled
quantity at target `T` — the quantity §4.3 of the spec calls the
contribution of one path.  It is the reference value against which the
accumulator-threading code is checked. -/

/-- Total lookup in the accumulator dict: quantity recorded for `key`,
`0` when the key is absent. -/
def lookupD (totals : List (String × ℚ)) (key : String) : ℚ :=
  (lookupOpt totals key).getD 0

mutual

/-- Sum of the resolved scaled quantities of every ingredient path from
`node` (at target amount `target_amount`) down to a leaf whose identifier
is `key`. -/
def contribSum : Node → ℚ → String → ℚ
  | .item _, _, _ => 0
  | .recipe _ ings out, target_amount, key =>
      contribSumIngredients ings (target_amount / out) key

/-- Path contributions of an ingredient list under a common multiplier:
a leaf entry contributes `amount * m` when its identifier is `key`; a
recipe entry contributes all of its own paths at scaled target
`amount * m`. -/
def contribSumIngredients : Ingredients → ℚ → String → ℚ
  | .nil, _, _ => 0
  | .cons _ amount (.item it) rest, m, key =>
      (if it.item_id = key then amount * m else 0) + contribSumIngredients rest m key
  | .cons _ amount (.recipe n ings o) rest, m, key =>
      contribSum (.recipe n ings o) (amount * m) key + contribSumIngredients rest m key

end

/-- `totals[item_id] += v` changes the recorded quantity at `key` by `v`
when `key = item_id` and leaves every other key unchanged — the update is
additive, never an overwrite. -/
theorem lookupD_addToTotals (totals : List (String × ℚ)) (id v key) :
    lookupD (addToTotals totals id v) key
      = lookupD totals key + (if id = key then v else 0) := by
  induction totals with
  | nil => by_cases h : id = key <;> simp [addToTotals, lookupD, lookupOpt, h]
  | cons hd tl ih =>
      obtain ⟨k, w⟩ := hd
      by_cases hk : k = id
      · subst hk
        by_cases h : k = key <;> simp [addToTotals, lookupD, lookupOpt, h]
      · by_cases h : k = key
        · subst h
          have hid : ¬ id = k := fun hh => hk hh.symm
          simp [addToTotals, lookupD, lookupOpt, hk, hid]
        · simp [addToTotals, lookupD, lookupOpt, hk, h] at ih ⊢
          exact ih

mutual

/-- The recursive walk adds exactly the path contributions of `node` on
top of whatever the accumulator already holds. -/
theorem lookupD_calcTotalRecursive (node : Node) (T : ℚ)
    (totals : List (String × ℚ)) (key : String) :
    lookupD (calcTotalRecursive node T totals) key
      = lookupD totals key + contribSum node T key := by
  match node with
  | .item it => simp [calcTotalRecursive, contribSum]
  | .recipe n ings o =>
      simp only [calcTotalRecursive, contribSum]
      exact lookupD_ingredientsTotals ings (T / o) totals key

/-- Ingredient-list version of `lookupD_calcTotalRecursive`. -/
theorem lookupD_ingredientsTotals (ings : Ingredients) (m : ℚ)
    (totals : List (String × ℚ)) (key : String) :
    lookupD (ingredientsTotals ings m totals) key
      = lookupD totals key + contribSumIngredients ings m key := by
  match ings with
  | .nil => simp [ingredientsTotals, contribSumIngredients]
  | .cons k amount (.item it) rest =>
      simp only [ingredientsTotals, contribSumIngredients]
      rw [lookupD_ingredientsTotals rest m _ key, lookupD_addToTotals]
      by_cases h : it.item_id = key
      · simp [h]
        ring
      · simp [h]
  | .cons k amount (.recipe n ings2 o) rest =>
      simp only [ingredientsTotals, contribSumIngredients]
      rw [lookupD_ingredientsTotals rest m _ key,
        lookupD_calcTotalRecursive (.recipe n ings2 o) (amount * m) totals key]
      ring

end

/-! ## Scaling -/

/-- Elementwise scaling of an accumulator: same keys in the same order,
every quantity multiplied by `k`. -/
def scaleTotals (k : ℚ) (totals : List (String × ℚ)) : List (String × ℚ) :=
  totals.map fun e => (e.1, k * e.2)

/-- Adding a `k`-scaled quantity to a `k`-scaled accumulator is the
`k`-scaling of the unscaled addition. -/
theorem addToTotals_scaleTotals (k : ℚ) (totals : List (String × ℚ)) (id v) :
    addToTotals (scaleTotals k totals) id (k * v)
      = scaleTotals k (addToTotals totals id v) := by
  induction totals with
  | nil => simp [addToTotals, scaleTotals, mul_add]
  | cons hd tl ih =>
      obtain ⟨a, b⟩ := hd
      simp only [scaleTotals, List.map_cons] at ih ⊢
      by_cases h : a = id <;> simp [addToTotals, h, mul_add, ih]

mutual

/-- Scaling the target amount by `k` scales the walk's entire effect by
`k`: on a `k`-scaled accumulator it produces the `k`-scaled result. -/
theorem calcTotalRecursive_scale (node : Node) (T k : ℚ)
    (totals : List (String × ℚ)) :
    calcTotalRecursive node (k * T) (scaleTotals k totals)
      = scaleTotals k (calcTotalRecursive node T totals) := by
  match node with
  | .item it => simp [calcTotalRecursive]
  | .recipe n ings o =>
      simp only [calcTotalRecursive]
      rw [mul_div_assoc]
      exact ingredientsTotals_scale ings (T / o) k totals

/-- Ingredient-list version of `calcTotalRecursive_scale`. -/
theorem ingredientsTotals_scale (ings : Ingredients) (m k : ℚ)
    (totals : List (String × ℚ)) :
    ingredientsTotals ings (k * m) (scaleTotals k totals)
      = scaleTotals k (ingredientsTotals ings m totals) := by
  match ings with
  | .nil => simp [ingredientsTotals]
  | .cons key amount (.item it) rest =>
      simp only [ingredientsTotals]
      rw [show amount * (k * m) = k * (amount * m) by ring,
        addToTotals_scaleTotals]
      exact ingredientsTotals_scale rest m k _
  | .cons key amount (.recipe n ings2 o) rest =>
      simp only [ingredientsTotals]
      rw [show amount * (k * m) = k * (amount * m) by ring,
        calcTotalRecursive_scale (.recipe n ings2 o) (amount * m) k totals]
      exact ingredientsTotals_scale rest m k _

end

/-! ## The spec's cost formula (§4.2), for comparison with the code -/

/-- The entries of an `ingredients` dict as a plain list of
`(key, amount, target)` triples. -/
def Ingredients.toList : Ingredients → List (String × ℚ × Node)
  | .nil => []
  | .cons key amount target rest => (key, amount, target) :: Ingredients.toList rest

/-- Written from the spec's words (§4.2): "sum over all ingredient
references `r` of: `(r.target is a Leaf Item ? r.target.unit_price :
unitCost(r.target)) * r.amount`" — an explicit tag dispatch, leaf price
for leaves, recursive unit cost for nested recipes. -/
def specIngredientSum (ings : Ingredients) : ℚ :=
  ((Ingredients.toList ings).map fun r =>
    (match r.2.2 with
     | .item it => it.price
     | .recipe n i o => calculate_cost (.recipe n i o)) * r.2.1).sum

/-- The code's generator sum equals the spec's dispatch formula. -/
theorem ingredientsCost_eq_specIngredientSum (ings : Ingredients) :
    ingredientsCost ings = specIngredientSum ings := by
  match ings with
  | .nil => simp [ingredientsCost, specIngredientSum, Ingredients.toList]
  | .cons key amount target rest =>
      have ih := ingredientsCost_eq_specIngredientSum rest
      match target with
      | .item it =>
          simp only [ingredientsCost, specIngredientSum, Ingredients.toList,
            List.map_cons, List.sum_cons, calculate_cost] at ih ⊢
          rw [ih]
      | .recipe n i o =>
          simp only [ingredientsCost, specIngredientSum, Ingredients.toList,
            List.map_cons, List.sum_cons] at ih ⊢
          rw [ih]

/-! ## Recursion depth and fuelled evaluators

The Python recursion is bounded by the nesting depth of recipe frames; a
fuelled evaluator that refuses to descend below `fuel` nested recipe
calls makes that bound checkable. -/

mutual

/-- Number of nested recipe frames below a node: a leaf needs no
recursive call at all (the implicit base case of §4.2). -/
def Node.depth : Node → ℕ
  | .item _ => 0
  | .recipe _ ings _ => 1 + Ingredients.depth ings

/-- Depth of the deepest target in an ingredient list. -/
def Ingredients.depth : Ingredients → ℕ
  | .nil => 0
  | .cons _ _ target rest => max (Node.depth target) (Ingredients.depth rest)

end

mutual

/-- `calculate_cost` with an explicit recursion-depth budget: entering a
recipe frame consumes one unit of fuel; exhausted fuel yields `none`. -/
def calculate_cost_fuel : ℕ → Node → Option ℚ
  | _, .item it => some it.price
  | 0, .recipe _ _ _ => none
  | fuel + 1, .recipe _ ings out =>
      (ingredientsCost_fuel fuel ings).map fun s => s / out

/-- Fuelled ingredient sum. -/
def ingredientsCost_fuel : ℕ → Ingredients → Option ℚ
  | _, .nil => some 0
  | fuel, .cons _ amount target rest => do
      let c ← calculate_cost_fuel fuel target
      let s ← ingredientsCost_fuel fuel rest
      pure (c * amount + s)

end

mutual

/-- `_calculate_total_amount_recursive` with an explicit recursion-depth
budget. -/
def calcTotalRecursive_fuel :
    ℕ → Node → ℚ → List (String × ℚ) → Option (List (String × ℚ))
  | _, .item _, _, totals => some totals
  | 0, .recipe _ _ _, _, _ => none
  | fuel + 1, .recipe _ ings out, target_amount, totals =>
      ingredientsTotals_fuel fuel ings (target_amount / out) totals

/-- Fuelled ingredient walk. -/
def ingredientsTotals_fuel :
    ℕ → Ingredients → ℚ → List (String × ℚ) → Option (List (String × ℚ))
  | _, .nil, _, totals => some totals
  | fuel, .cons _ amount (.item it) rest, m, totals =>
      ingredientsTotals_fuel fuel rest m (addToTotals totals it.item_id (amount * m))
  | fuel, .cons _ amount (.recipe n ings o) rest, m, totals => do
      let t ← calcTotalRecursive_fuel fuel (.recipe n ings o) (amount * m) totals
      ingredientsTotals_fuel fuel rest m t

end

/-- Joint adequacy of the fuelled evaluators, by strong induction on the
size of the tree: once the fuel is at least the recursion depth, both
fuelled walks finish and agree with the unfuelled functions. -/
theorem fueled_adequate (N : ℕ) :
    (∀ node : Node, sizeOf node ≤ N → ∀ fuel : ℕ, Node.depth node ≤ fuel →
        calculate_cost_fuel fuel node = some (calculate_cost node) ∧
        ∀ (T : ℚ) (totals : List (String × ℚ)),
          calcTotalRecursive_fuel fuel node T totals
            = some (calcTotalRecursive node T totals)) ∧
    (∀ ings : Ingredients, sizeOf ings ≤ N → ∀ fuel : ℕ,
        Ingredients.depth ings ≤ fuel →
        ingredientsCost_fuel fuel ings = some (ingredientsCost ings) ∧
        ∀ (m : ℚ) (totals : List (String × ℚ)),
          ingredientsTotals_fuel fuel ings m totals
            = some (ingredientsTotals ings m totals)) := by
  induction N with
  | zero =>
      constructor
      · intro node hn
        cases node with
        | item it => simp [Node.item.sizeOf_spec] at hn
        | recipe n ings o => simp [Node.recipe.sizeOf_spec] at hn
      · intro ings hn
        cases ings with
        | nil => simp [Ingredients.nil.sizeOf_spec] at hn
        | cons key amount target rest => simp [Ingredients.cons.sizeOf_spec] at hn
  | succ N ih =>
      obtain ⟨ihN, ihI⟩ := ih
      constructor
      · intro node hn fuel hd
        cases node with
        | item it =>
            refine ⟨?_, ?_⟩
            · rw [calculate_cost_fuel.eq_def]
              simp [calculate_cost]
            · intro T totals
              rw [calcTotalRecursive_fuel.eq_def]
              simp [calcTotalRecursive]
        | recipe n ings o =>
            have hspec := Node.recipe.sizeOf_spec n ings o
            have hsz : sizeOf ings ≤ N := by omega
            cases fuel with
            | zero => simp [Node.depth] at hd
            | succ fuel =>
                have hdi : Ingredients.depth ings ≤ fuel := by
                  simp [Node.depth] at hd; omega
                obtain ⟨hc, ht⟩ := ihI ings hsz fuel hdi
                refine ⟨?_, ?_⟩
                · rw [calculate_cost_fuel.eq_def]
                  simp [calculate_cost, hc]
                · intro T totals
                  rw [calcTotalRecursive_fuel.eq_def]
                  simp [calcTotalRecursive, ht]
      · intro ings hn fuel hd
        cases ings with
        | nil =>
            refine ⟨?_, ?_⟩
            · rw [ingredientsCost_fuel.eq_def]
              simp [ingredientsCost]
            · intro m totals
              rw [ingredientsTotals_fuel.eq_def]
              simp [ingredientsTotals]
        | cons key amount target rest =>
            have hspec := Ingredients.cons.sizeOf_spec key amount target rest
            have hszt : sizeOf target ≤ N := by omega
            have hszr : sizeOf rest ≤ N := by omega
            simp only [Ingredients.depth, max_le_iff] at hd
            obtain ⟨hct, htt⟩ := ihN target hszt fuel hd.1
            obtain ⟨hcr, htr⟩ := ihI rest hszr fuel hd.2
            refine ⟨?_, ?_⟩
            · rw [ingredientsCost_fuel.eq_def]
              simp [ingredientsCost, hct, hcr]
            intro m totals
            cases target with
            | item it =>
                rw [ingredientsTotals_fuel.eq_def]
                simp [ingredientsTotals, htr]
            | recipe n2 ings2 o2 =>
                rw [ingredientsTotals_fuel.eq_def]
                simp [ingredientsTotals, htt (amount * m) totals, htr]

/-- With fuel at least the node's depth, the fuelled cost evaluator
finishes and agrees with `calculate_cost`. -/
theorem calculate_cost_fuel_eq (node : Node) (fuel : ℕ)
    (h : Node.depth node ≤ fuel) :
    calculate_cost_fuel fuel node = some (calculate_cost node) :=
  ((fueled_adequate (sizeOf node)).1 node le_rfl fuel h).1

/-- With fuel at least the node's depth, the fuelled quantity walk
finishes and agrees with `calcTotalRecursive`. -/
theorem calcTotalRecursive_fuel_eq (node : Node) (fuel : ℕ) (T : ℚ)
    (totals : List (String × ℚ)) (h : Node.depth node ≤ fuel) :
    calcTotalRecursive_fuel fuel node T totals
      = some (calcTotalRecursive node T totals) :=
  ((fueled_adequate (sizeOf node)).1 node le_rfl fuel h).2 T totals

/-! ## Lookup characterization of `fetch_item_data` -/

/-- A successful lookup's result is a member of the list. -/
theorem lookupOpt_mem {α : Type _} (l : List (String × α)) (key : String)
    (v : α) (h : lookupOpt l key = some v) : (key, v) ∈ l := by
  induction l with
  | nil => simp [lookupOpt] at h
  | cons hd tl ih =>
      obtain ⟨k, w⟩ := hd
      by_cases hk : k = key
      · subst hk
        simp [lookupOpt] at h
        simp [h]
      · simp [lookupOpt, hk] at h
        simp [ih h]

/-- In `ITEM_DATA`, every configured name equals its entry's id. -/
theorem ITEM_DATA_key_eq_id : ∀ e ∈ ITEM_DATA, e.1 = e.2.id := by
  intro e he
  simp only [ITEM_DATA, List.mem_cons, List.not_mem_nil, or_false] at he
  rcases he with h | h | h | h | h | h <;> subst h <;> rfl

/-- When the response lacks price `name`, the fetched mapping (built from
any configuration whose names equal their ids) has no entry under
`name`. -/
theorem lookupOpt_fetchAux_none (products : List (String × ℚ))
    (l : List (String × ItemInfo)) (name : String)
    (hkey : ∀ e ∈ l, e.1 = e.2.id)
    (h : lookupOpt products name = none) :
    lookupOpt
      (l.filterMap fun entry =>
        (lookupOpt products entry.2.id).map fun buyPrice =>
          (entry.1, Item.mk entry.2.id (pyRound2 buyPrice) entry.2.stack_size))
      name = none := by
  induction l with
  | nil => simp [lookupOpt]
  | cons hd tl ih =>
      obtain ⟨k, info⟩ := hd
      have hk : k = info.id := hkey (k, info) (by simp)
      have htl : ∀ e ∈ tl, e.1 = e.2.id := fun e he => hkey e (by simp [he])
      by_cases hkn : k = name
      · subst hkn
        have hpid : lookupOpt products info.id = none := by rw [← hk]; exact h
        simpa [List.filterMap_cons, hpid] using ih htl
      · cases hp : lookupOpt products info.id with
        | none => simpa [List.filterMap_cons, hp] using ih htl
        | some bp => simpa [List.filterMap_cons, hp, lookupOpt, hkn] using ih htl

/-- When the configuration has `name ↦ info` (first match) and the
response prices `name`, the fetched mapping binds `name` to the rounded
`Item`. -/
theorem lookupOpt_fetchAux_some (products : List (String × ℚ))
    (l : List (String × ItemInfo)) (name : String) (info : ItemInfo) (bp : ℚ)
    (hkey : ∀ e ∈ l, e.1 = e.2.id)
    (hl : lookupOpt l name = some info)
    (hp : lookupOpt products name = some bp) :
    lookupOpt
      (l.filterMap fun entry =>
        (lookupOpt products entry.2.id).map fun buyPrice =>
          (entry.1, Item.mk entry.2.id (pyRound2 buyPrice) entry.2.stack_size))
      name = some (Item.mk info.id (pyRound2 bp) info.stack_size) := by
  induction l with
  | nil => simp [lookupOpt] at hl
  | cons hd tl ih =>
      obtain ⟨k, i⟩ := hd
      have hk : k = i.id := hkey (k, i) (by simp)
      have htl : ∀ e ∈ tl, e.1 = e.2.id := fun e he => hkey e (by simp [he])
      by_cases hkn : k = name
      · subst hkn
        simp only [lookupOpt, if_pos] at hl
        obtain rfl : i = info := by injection hl
        have hpid : lookupOpt products i.id = some bp := by rw [← hk]; exact hp
        simp [List.filterMap_cons, hpid, lookupOpt]
      · simp only [lookupOpt, if_neg hkn] at hl
        cases hpk : lookupOpt products i.id with
        | none => simpa [List.filterMap_cons, hpk] using ih htl hl
        | some bp2 => simpa [List.filterMap_cons, hpk, lookupOpt, hkn] using ih htl hl

/-- The required leaves: every id the recipe construction looks up in
`items_data`. -/
def requiredLeafIds : List String :=
  [("ENCHANTED_COAL"), ("ENCHANTED_SULPHUR"), ("VERY_CRUDE_GABAGOOL"),
   ("INFERNO_FUEL_BLOCK"), ("CRUDE_GABAGOOL_DISTILLATE")]

/-- A missing required key makes the construction chain abort with
`none`, whichever lookups before it succeed. -/
theorem build_recipes_none (items : List (String × Item)) (id : String)
    (hmem : id ∈ requiredLeafIds) (hnone : lookupOpt items id = none) :
    build_recipes items = none := by
  simp only [requiredLeafIds, List.mem_cons, List.not_mem_nil, or_false] at hmem
  rcases hmem with h | h | h | h | h <;> subst h
  · simp [build_recipes, hnone]
  · cases h1 : lookupOpt items ("ENCHANTED_COAL") <;>
      simp [build_recipes, h1, hnone]
  · cases h1 : lookupOpt items ("ENCHANTED_COAL") <;>
      cases h2 : lookupOpt items ("ENCHANTED_SULPHUR") <;>
      simp [build_recipes, h1, h2, hnone]
  · cases h1 : lookupOpt items ("ENCHANTED_COAL") <;>
      cases h2 : lookupOpt items ("ENCHANTED_SULPHUR") <;>
      cases h3 : lookupOpt items ("VERY_CRUDE_GABAGOOL") <;>
      simp [build_recipes, h1, h2, h3, hnone]
  · cases h1 : lookupOpt items ("ENCHANTED_COAL") <;>
      cases h2 : lookupOpt items ("ENCHANTED_SULPHUR") <;>
      cases h3 : lookupOpt items ("VERY_CRUDE_GABAGOOL") <;>
      cases h4 : lookupOpt items ("INFERNO_FUEL_BLOCK") <;>
      simp [build_recipes, h1, h2, h3, h4, hnone]

/-! ## The claims -/

/-- A concrete set of fetched prices used to instantiate universally
quantified statements. -/
def p0 : Prices := ⟨2, 100, 5, 10, 7⟩

/-- A recipe in which the same leaf identifier `L` is reachable through
two different ingredient paths: once through a nested sub-recipe
(resolved quantity 6 at target 2) and once directly (resolved quantity
10 at target 2). -/
def twoPathTree : Node :=
  .recipe ("root")
    (.cons ("sub") 1
      (.recipe ("sub") (.cons ("L") 3 (.item ⟨("L"), 1, 64⟩) .nil) 1)
      (.cons ("direct") 5 (.item ⟨("L"), 1, 64⟩) .nil))
    1

/-- C1: for every Recipe node, `calculate_cost` returns the sum over its
ingredient references of (leaf unit price, resp. recursive unit cost)
times amount, divided by the node's `output_amount`; for `output_amount`
`n > 0` and total raw ingredient cost `C = specIngredientSum ings` per
execution, the result is `C / n`. -/
theorem claim_C1 (name : String) (ings : Ingredients) (n : ℚ)
    (_hn : 0 < n) :
    calculate_cost (.recipe name ings n) = specIngredientSum ings / n := by
  simp [calculate_cost, ingredientsCost_eq_specIngredientSum]

theorem claim_C1_witness :
    (0 : ℚ) < 4 ∧
      calculate_cost (.recipe ("Sulphuric Coal")
          (.cons ("ENCHANTED_COAL") 16 (.item ⟨("ENCHANTED_COAL"), 2, 64⟩)
            (.cons ("ENCHANTED_SULPHUR") 1
              (.item ⟨("ENCHANTED_SULPHUR"), 100, 64⟩) .nil)) 4)
        = specIngredientSum
            (.cons ("ENCHANTED_COAL") 16 (.item ⟨("ENCHANTED_COAL"), 2, 64⟩)
              (.cons ("ENCHANTED_SULPHUR") 1
                (.item ⟨("ENCHANTED_SULPHUR"), 100, 64⟩) .nil)) / 4 :=
  ⟨by norm_num, claim_C1 _ _ 4 (by norm_num)⟩

/-- C2: `calculate_total_amount` accumulates additively: the reported
quantity at every leaf identifier is the sum of the resolved scaled
quantities over all ingredient paths reaching it (`contribSum`), never
one contribution overwriting another; concretely on `twoPathTree`, whose
leaf `L` is reached via two paths with resolved quantities 6 and 10 at
target 2, the mapping reports 6 + 10 = 16. -/
theorem claim_C2 :
    (∀ (node : Node) (T : ℚ) (key : String),
        lookupD (calculate_total_amount node T) key = contribSum node T key) ∧
    calculate_total_amount twoPathTree 2 = [(("L"), 16)] := by
  constructor
  · intro node T key
    rw [calculate_total_amount, lookupD_calcTotalRecursive]
    simp [lookupD, lookupOpt]
  · simp [calculate_total_amount, twoPathTree, calcTotalRecursive,
      ingredientsTotals, addToTotals]
    norm_num

/-- C3: scaling the target amount by a positive `k` scales the result
elementwise — the returned mapping has the same leaf-identifier keys (in
the same order) and every quantity multiplied by exactly `k`. -/
theorem claim_C3 (node : Node) (T k : ℚ) (_hk : 0 < k) :
    calculate_total_amount node (k * T)
      = scaleTotals k (calculate_total_amount node T) := by
  have h := calcTotalRecursive_scale node T k []
  simpa [calculate_total_amount, scaleTotals] using h

theorem claim_C3_witness :
    (0 : ℚ) < 2 ∧
      calculate_total_amount (SULPHURIC_COAL p0) (2 * 8)
        = scaleTotals 2 (calculate_total_amount (SULPHURIC_COAL p0) 8) :=
  ⟨by norm_num, claim_C3 (SULPHURIC_COAL p0) 8 2 (by norm_num)⟩

/-- C4: with leaf prices ENCHANTED_COAL = 2 and ENCHANTED_SULPHUR = 100,
the SULPHURIC_COAL recipe (16 coal + 1 sulphur, output 4) costs
`(16*2 + 1*100) / 4 = 33.0` per unit. -/
theorem claim_C4 (p : Prices) (h1 : p.enchanted_coal = 2)
    (h2 : p.enchanted_sulphur = 100) :
    calculate_cost (SULPHURIC_COAL p) = (16 * 2 + 1 * 100) / 4 ∧
    calculate_cost (SULPHURIC_COAL p) = 33 := by
  constructor <;>
    · simp [SULPHURIC_COAL, calculate_cost, ingredientsCost, h1, h2]
      norm_num

theorem claim_C4_witness :
    p0.enchanted_coal = 2 ∧ p0.enchanted_sulphur = 100 ∧
      (calculate_cost (SULPHURIC_COAL p0) = (16 * 2 + 1 * 100) / 4 ∧
       calculate_cost (SULPHURIC_COAL p0) = 33) :=
  ⟨rfl, rfl, claim_C4 p0 rfl rfl⟩

/-- C5: for any fetched prices, requesting 8 units of SULPHURIC_COAL
(output 4) yields exactly the mapping ENCHANTED_COAL ↦ 32,
ENCHANTED_SULPHUR ↦ 2, in dict insertion order. -/
theorem claim_C5 (p : Prices) :
    calculate_total_amount (SULPHURIC_COAL p) 8
      = [(("ENCHANTED_COAL"), 32), (("ENCHANTED_SULPHUR"), 2)] := by
  simp [calculate_total_amount, SULPHURIC_COAL, calcTotalRecursive,
    ingredientsTotals, addToTotals]
  norm_num

/-- C6: if the price response lacks any leaf identifier the recipe tree
requires, the import-time construction aborts (`KeyError`, modelled
`none`) before any valuation: no tree is produced, hence no default price
is ever substituted. -/
theorem claim_C6 (products : List (String × ℚ)) (id : String)
    (h1 : id ∈ requiredLeafIds) (h2 : lookupOpt products id = none) :
    build_recipes (fetch_item_data products) = none := by
  apply build_recipes_none _ id h1
  have := lookupOpt_fetchAux_none products ITEM_DATA id ITEM_DATA_key_eq_id h2
  simpa [fetch_item_data] using this

theorem claim_C6_witness :
    ("ENCHANTED_SULPHUR") ∈ requiredLeafIds ∧
      lookupOpt [(("ENCHANTED_COAL"), (2 : ℚ))] ("ENCHANTED_SULPHUR") = none ∧
      build_recipes (fetch_item_data [(("ENCHANTED_COAL"), (2 : ℚ))]) = none :=
  ⟨by simp [requiredLeafIds], by simp [lookupOpt],
    claim_C6 [(("ENCHANTED_COAL"), (2 : ℚ))] ("ENCHANTED_SULPHUR")
      (by simp [requiredLeafIds]) (by simp [lookupOpt])⟩

/-- C7: a consumer (minion) count of 0 with any target quantity makes
`main` raise `ZeroDivisionError` at `t3_amount / minion_amount` — a fatal
error terminating the process before anything (in particular the
per-consumer amount) is printed; no infinite or NaN value is produced. -/
theorem claim_C7 (p : Prices) (t3 : ℤ) :
    run_main p (.valid t3) (.valid 0)
      = Except.error ((("ZeroDivisionError: division by zero"), 1) : PyExit) :=
  rfl

/-- C8: both algorithms terminate on every recipe tree: a fuelled
evaluator with recursion-depth budget at least the tree's depth finishes
and agrees with the recursive functions — on the fixed `T3_FUEL` tree in
particular. -/
theorem claim_C8 (p : Prices) (fuel : ℕ) (T : ℚ)
    (totals : List (String × ℚ)) (h : Node.depth (T3_FUEL p) ≤ fuel) :
    calculate_cost_fuel fuel (T3_FUEL p) = some (calculate_cost (T3_FUEL p)) ∧
    calcTotalRecursive_fuel fuel (T3_FUEL p) T totals
      = some (calcTotalRecursive (T3_FUEL p) T totals) :=
  ⟨calculate_cost_fuel_eq _ _ h, calcTotalRecursive_fuel_eq _ _ _ _ h⟩

theorem claim_C8_witness :
    Node.depth (T3_FUEL p0) ≤ 5 ∧
      (calculate_cost_fuel 5 (T3_FUEL p0) = some (calculate_cost (T3_FUEL p0)) ∧
       calcTotalRecursive_fuel 5 (T3_FUEL p0) 1 []
         = some (calcTotalRecursive (T3_FUEL p0) 1 [])) :=
  ⟨by simp [T3_FUEL, HYPERGOLIC_GABAGOOL, HEAVY_GABAGOOL, FUEL_GABAGOOL,
      SULPHURIC_COAL, Node.depth, Ingredients.depth],
    claim_C8 p0 5 1 []
      (by simp [T3_FUEL, HYPERGOLIC_GABAGOOL, HEAVY_GABAGOOL, FUEL_GABAGOOL,
        SULPHURIC_COAL, Node.depth, Ingredients.depth])⟩

/-- C9: a non-integer line or a keyboard interrupt at either prompt makes
the process print the respective short diagnostic and exit with status 1
(non-zero), before any computation: the run ends in that error whatever
the other prompt would have produced. -/
theorem claim_C9 (p : Prices) (e2 : OpInput) (t3 : ℤ) :
    run_main p .notAnInt e2
        = Except.error ((("\nScheint keine Zahl zu sein ...")), 1) ∧
    run_main p .keyboardInterrupt e2
        = Except.error ((("\nReceived KeyboardInterrupt ...")), 1) ∧
    run_main p (.valid t3) .notAnInt
        = Except.error ((("\nScheint keine Zahl zu sein ...")), 1) ∧
    run_main p (.valid t3) .keyboardInterrupt
        = Except.error ((("\nReceived KeyboardInterrupt ...")), 1) :=
  ⟨rfl, rfl, rfl, rfl⟩

/-- C10: `fetch_item_data` returns entries exactly for the configured
names whose id is present in the response's products — absent identifiers
are silently omitted from the mapping, not an error — and each returned
item carries id and stack size from the configuration and the fetched
`buyPrice` rounded to two decimals, before any recipe is constructed. -/
theorem claim_C10 (products : List (String × ℚ)) (name : String)
    (info : ItemInfo) (hconf : lookupOpt ITEM_DATA name = some info) :
    (lookupOpt products info.id = none →
        lookupOpt (fetch_item_data products) name = none) ∧
    ∀ bp : ℚ, lookupOpt products info.id = some bp →
        lookupOpt (fetch_item_data products) name
          = some (Item.mk info.id (pyRound2 bp) info.stack_size) := by
  have hid : info.id = name :=
    (ITEM_DATA_key_eq_id (name, info) (lookupOpt_mem ITEM_DATA name info hconf)).symm
  constructor
  · intro hnone
    rw [hid] at hnone
    have := lookupOpt_fetchAux_none products ITEM_DATA name ITEM_DATA_key_eq_id hnone
    simpa [fetch_item_data] using this
  · intro bp hsome
    rw [hid] at hsome
    have := lookupOpt_fetchAux_some products ITEM_DATA name info bp
      ITEM_DATA_key_eq_id hconf hsome
    simpa [fetch_item_data] using this

theorem claim_C10_witness :
    lookupOpt ITEM_DATA ("ENCHANTED_COAL") = some ⟨("ENCHANTED_COAL"), 64⟩ ∧
      ((lookupOpt [(("ENCHANTED_SULPHUR"), (7 : ℚ))]
            (ItemInfo.mk ("ENCHANTED_COAL") 64).id = none →
          lookupOpt (fetch_item_data [(("ENCHANTED_SULPHUR"), (7 : ℚ))])
            ("ENCHANTED_COAL") = none) ∧
        ∀ bp : ℚ,
          lookupOpt [(("ENCHANTED_SULPHUR"), (7 : ℚ))]
              (ItemInfo.mk ("ENCHANTED_COAL") 64).id = some bp →
            lookupOpt (fetch_item_data [(("ENCHANTED_SULPHUR"), (7 : ℚ))])
                ("ENCHANTED_COAL")
              = some (Item.mk (ItemInfo.mk ("ENCHANTED_COAL") 64).id
                  (pyRound2 bp) (ItemInfo.mk ("ENCHANTED_COAL") 64).stack_size)) :=
  ⟨by simp [ITEM_DATA, lookupOpt],
    claim_C10 _ _ _ (by simp [ITEM_DATA, lookupOpt])⟩
